import Mathlib

/-
  Verification development for the simple-golang-fe repository.

  The repository has two Go programs:
  * a frontend (main.go, package main with mux): a reverse-proxy relay under
    the path prefix "/api/" plus template/static/health handlers;
  * an aggregator service (second main): an HTTP handler at /aggregate that
    fans a request out to `count` concurrent backend calls and merges the
    results.

  Below, the Go standard-library functions the code calls (strings.TrimPrefix,
  path cleaning inside filepath.Join, strconv.Atoi, strings.TrimSpace,
  net.SplitHostPort, http.Header access) are translated from their documented
  byte-level semantics; strings are modelled as sequences of characters, which
  coincides with the Go byte view on the ASCII data these handlers manipulate.
  All string operations are written over List Char so that every definition
  evaluates inside the kernel.
-/

namespace SimpleGolangFE

/-! ### Character-level string primitives -/

/-- Models strings.HasPrefix: s begins with pre. -/
def goHasPrefix (s pre : String) : Bool :=
  pre.data.isPrefixOf s.data

/-- Split a character list at every occurrence of sep, keeping empty
fields; models strings.Split with a one-character separator. -/
def splitOnChar : List Char → Char → List (List Char)
  | [], _ => [[]]
  | c :: rest, sep =>
    match splitOnChar rest sep with
    | [] => [[]]
    | h :: t => if c = sep then [] :: h :: t else (c :: h) :: t

/-- ASCII lower-casing of one character. -/
def charToLower (c : Char) : Char :=
  if 'A' ≤ c ∧ c ≤ 'Z' then Char.ofNat (c.toNat + 32) else c

/-- Models strings.ToLower on the ASCII header names the code compares. -/
def goToLower (s : String) : String :=
  String.mk (s.data.map charToLower)

/-! ### Go standard-library string helpers -/

/-- Models strings.TrimPrefix: returns s without the provided leading
prefix string; s is returned unchanged if it does not start with pre. -/
def trimPrefix (s pre : String) : String :=
  if goHasPrefix s pre then String.mk (s.data.drop pre.data.length) else s

/-- Models unicode.IsSpace, the predicate used by strings.TrimSpace:
the Unicode White_Space code points. -/
def isGoSpace (c : Char) : Bool :=
  let n := c.toNat
  decide (n = 0x20 ∨ (0x9 ≤ n ∧ n ≤ 0xD) ∨ n = 0x85 ∨ n = 0xA0 ∨ n = 0x1680 ∨
    (0x2000 ≤ n ∧ n ≤ 0x200A) ∨ n = 0x2028 ∨ n = 0x2029 ∨ n = 0x202F ∨
    n = 0x205F ∨ n = 0x3000)

/-- Models strings.TrimSpace: remove leading and trailing white space. -/
def goTrimSpace (s : String) : String :=
  String.mk (((s.data.dropWhile isGoSpace).reverse.dropWhile isGoSpace).reverse)

/-- One pass of the lexical algorithm of path.Clean from Go over the
slash-separated components of a path: empty and "." components vanish,
".." pops a previous component (or is kept when there is nothing left to
pop and the path is relative, or dropped at the root of a rooted path).
The accumulator holds the output components in reverse. -/
def cleanComps (rooted : Bool) : List (List Char) → List (List Char) → List (List Char)
  | acc, [] => acc.reverse
  | acc, c :: rest =>
    if c = [] ∨ c = ['.'] then cleanComps rooted acc rest
    else if c = ['.', '.'] then
      match acc with
      | [] => if rooted then cleanComps rooted [] rest
              else cleanComps rooted [['.', '.']] rest
      | x :: xs => if x = ['.', '.'] then cleanComps rooted (['.', '.'] :: x :: xs) rest
                   else cleanComps rooted xs rest
    else cleanComps rooted (c :: acc) rest

/-- Join character-list components with a slash. -/
def joinComps : List (List Char) → List Char
  | [] => []
  | [c] => c
  | c :: rest => c ++ '/' :: joinComps rest

/-- Models path.Clean (= filepath.Clean with the Unix separator, and
filepath.ToSlash is the identity there): shortest lexically equivalent
path; "" cleans to ".". -/
def goClean (p : String) : String :=
  if p = "" then "."
  else
    let rooted := goHasPrefix p "/"
    let comps := cleanComps rooted [] (splitOnChar p.data '/')
    if rooted then String.mk ('/' :: joinComps comps)
    else if comps = [] then "." else String.mk (joinComps comps)

/-- Models filepath.Join on two elements with the Unix separator:
empty elements before the first non-empty one are skipped, the rest are
joined with "/" and the result is cleaned; all-empty input gives "". -/
def goJoin2 (a b : String) : String :=
  if a = "" then (if b = "" then "" else goClean b)
  else goClean (a ++ "/" ++ b)

/-- Digit-string value: some n when every character is an ASCII decimal
digit (most significant first), none otherwise. -/
def digitsToNat? (cs : List Char) : Option Nat :=
  cs.foldl (fun acc c =>
    match acc with
    | none => none
    | some n => if '0' ≤ c ∧ c ≤ '9' then some (n * 10 + (c.toNat - '0'.toNat))
                else none) (some 0)

/-- Models strconv.Atoi (base 10, platform int = int64): an optional
single leading sign followed by at least one ASCII digit; any other
character, an empty digit part, or a value outside the int64 range is an
error (modelled as none; Atoi then returns err ≠ nil). -/
def goAtoi (s : String) : Option Int :=
  match s.data with
  | [] => none
  | c :: rest =>
    let p : Bool × List Char :=
      if c = '-' then (true, rest)
      else if c = '+' then (false, rest) else (false, c :: rest)
    if p.2 = [] then none
    else
      match digitsToNat? p.2 with
      | none => none
      | some n =>
        let v : Int := if p.1 then -(n : Int) else (n : Int)
        if -(2 ^ 63) ≤ v ∧ v ≤ 2 ^ 63 - 1 then some v else none

/-- Index of the last occurrence of a character in a list, if any. -/
def lastIdxOf (cs : List Char) (c : Char) : Option Nat :=
  (cs.reverse.findIdx? (· == c)).map (fun i => cs.length - 1 - i)

/-- Index of the first occurrence of a character in a list, if any. -/
def idxOf? (cs : List Char) (c : Char) : Option Nat :=
  cs.findIdx? (· == c)

/-- Models net.SplitHostPort: splits "host:port" (the host may be
bracketed, "[host]:port") at the last colon; returns none exactly when Go
returns an error (missing port, missing bracket, stray colon or stray
bracket). -/
def splitHostPort (s : String) : Option (String × String) :=
  let cs := s.data
  match lastIdxOf cs ':' with
  | none => none
  | some i =>
    let core : Option (List Char × Nat × Nat) :=
      if cs.head? = some '[' then
        match idxOf? cs ']' with
        | none => none
        | some e =>
          if e + 1 = cs.length then none
          else if e + 1 = i then some ((cs.drop 1).take (e - 1), 1, e + 1)
          else none
      else
        let host := cs.take i
        if host.contains ':' then none else some (host, 0, 0)
    match core with
    | none => none
    | some (host, j, k) =>
      if (cs.drop j).contains '[' ∨ (cs.drop k).contains ']' then none
      else some (String.mk host, String.mk (cs.drop (i + 1)))

/-- Models getEnv from main.go: the environment value when it is
non-empty, otherwise the default (os.Getenv yields "" for an unset
variable, so unset and empty both fall back). -/
def getEnvOr (envVal dflt : String) : String :=
  if envVal ≠ "" then envVal else dflt

example : trimPrefix "/api/foo" "/api" = "/foo" := by decide
example : goClean "/base//foo" = "/base/foo" := by decide
example : goJoin2 "/base" "/foo" = "/base/foo" := by decide
example : goJoin2 "/base" "/../x" = "/x" := by decide
example : goAtoi "42" = some 42 := by decide
example : goAtoi "-7" = some (-7) := by decide
example : goAtoi "" = none := by decide
example : goAtoi "4x" = none := by decide
example : splitHostPort "1.2.3.4:5678" = some ("1.2.3.4", "5678") := by decide
example : splitHostPort "localhost" = none := by decide
example : goTrimSpace " 10.0.0.1 " = "10.0.0.1" := by decide
example : goToLower "Connection" = "connection" := by decide

/-! ### Aggregator service (aggregateHandler) -/

/-- Hard-coded backend identity constant backend01 of aggregateHandler. -/
def backend01 : String := "GoBackend01"

/-- Hard-coded backend identity constant backend02 of aggregateHandler. -/
def backend02 : String := "GoBackend02"

/-- fmt.Sprintf of "%d ms" applied to a millisecond value. -/
def formatMs (ms : Nat) : String := toString ms ++ " ms"

/-- time.Duration.Milliseconds of the interval between two nanosecond
timestamps (integer division by 10^6; the readings come from a monotonic
clock, so endNs is never below startNs). -/
def durMs (startNs endNs : Nat) : Nat := (endNs - startNs) / 1000000

/-- The data a successful unit of work carries into the locked section:
the uuid and hostname fields decoded from the backend JSON body, and the
call duration the unit itself measured (endTime minus startTime in
milliseconds). The decoded exec_time string of the backend body is not
used by the handler, which re-formats the measured duration instead. -/
structure UnitSuccess where
  uuid : String
  hostname : String
  elapsedMs : Nat
deriving DecidableEq

/-- Outcome of one goroutine of the fan-out loop: none when the HTTP
call, the body read or the JSON unmarshal failed (the goroutine merely
logs and returns); some payload when it reached the locked section. -/
abbrev UnitOutcome := Option UnitSuccess

/-- One element of the responses slice (struct BackendResponse). -/
structure BackendResponse where
  uuid : String
  hostname : String
  execTime : String
deriving DecidableEq

/-- The shared state guarded by mu: the responses slice and the two
counters. -/
@[ext]
structure AggState where
  responses : List BackendResponse
  backend1Count : Nat
  backend2Count : Nat
deriving DecidableEq

/-- The critical section of one goroutine (mu.Lock to mu.Unlock): append
the response, then increment backend1Count when the hostname equals
backend01, else increment backend2Count when it equals backend02. A
failed unit leaves the state unchanged. -/
def aggStep (st : AggState) (o : UnitOutcome) : AggState :=
  match o with
  | none => st
  | some u =>
    { responses := st.responses ++
        [{ uuid := u.uuid, hostname := u.hostname, execTime := formatMs u.elapsedMs }]
      backend1Count :=
        if u.hostname = backend01 then st.backend1Count + 1 else st.backend1Count
      backend2Count :=
        if u.hostname = backend01 then st.backend2Count
        else if u.hostname = backend02 then st.backend2Count + 1
        else st.backend2Count }

/-- The whole fan-out: the outcomes of the goroutines applied to the
initially empty state, listed in the order the goroutines acquire mu
(completion order, nondeterministic across runs). -/
def aggregate (outcomes : List UnitOutcome) : AggState :=
  outcomes.foldl aggStep { responses := [], backend1Count := 0, backend2Count := 0 }

/-- Number of goroutines launched by the loop
for i := 0; i < count; i++ for an int value count. -/
def numUnits (count : Int) : Nat := count.toNat

/-- The struct AggregatedResponse the handler marshals. -/
@[ext]
structure AggregatedResponse where
  responses : List BackendResponse
  backend1Count : Nat
  backend2Count : Nat
  totalTime : String
deriving DecidableEq

/-- What the aggregate handler writes: http.Error with a status and a
message, or 200 with the marshalled AggregatedResponse. Marshalling a
struct of strings, ints and a slice of such structs cannot fail, so the
500 branch after json.Marshal is unreachable and not modelled. -/
inductive HandlerResult where
  | httpError (status : Nat) (message : String)
  | ok (status : Nat) (body : AggregatedResponse)
deriving DecidableEq

/-- The HTTP status a HandlerResult writes. -/
def handlerStatus : HandlerResult → Nat
  | .httpError s _ => s
  | .ok s _ => s

/-- The total_time field of a 200 HandlerResult. -/
def reportedTotalTime : HandlerResult → Option String
  | .httpError _ _ => none
  | .ok _ b => some b.totalTime

/-- aggregateHandler: query.Get of count yields "" when the parameter is
absent, and "" fails with 400 "count parameter is required"; a
strconv.Atoi failure gives 400 "invalid count parameter"; otherwise the
fan-out runs and the handler writes 200 with the aggregated body. The
loop launches numUnits count goroutines, so theorems instantiate the
outcomes list with that length; totalMs is durMs of the two top-level
time.Now readings around the fan-out. -/
def aggregateHandler (countStr : String) (outcomes : List UnitOutcome)
    (totalMs : Nat) : HandlerResult :=
  if countStr = "" then .httpError 400 "count parameter is required"
  else
    match goAtoi countStr with
    | none => .httpError 400 "invalid count parameter"
    | some _count =>
      let st := aggregate outcomes
      .ok 200 { responses := st.responses, backend1Count := st.backend1Count,
                backend2Count := st.backend2Count, totalTime := formatMs totalMs }

/-- Marshalling of the Responses field by encoding/json: the Go slice is
nil exactly when no goroutine appended to it (the list is empty), a nil
slice marshals as null, and a non-nil slice as a JSON array of its
elements. -/
def marshalResponsesField (elemJson : BackendResponse → String)
    (rs : List BackendResponse) : String :=
  if rs = [] then "null"
  else "[" ++ String.intercalate "," (rs.map elemJson) ++ "]"

/-! ### Aggregation lemmas -/

/-- The response one outcome contributes, if any. -/
def respOf : UnitOutcome → Option BackendResponse
  | none => none
  | some u => some { uuid := u.uuid, hostname := u.hostname, execTime := formatMs u.elapsedMs }

/-- Outcomes counted into backend1Count. -/
def isB1 : UnitOutcome → Bool
  | none => false
  | some u => u.hostname == backend01

/-- Outcomes counted into backend2Count (the else-if branch). -/
def isB2 : UnitOutcome → Bool
  | none => false
  | some u => u.hostname != backend01 && u.hostname == backend02

/-- Outcomes counted into either counter. -/
def isCounted (o : UnitOutcome) : Bool := isB1 o || isB2 o

/-- The two identity constants are distinct strings. -/
theorem backend02_ne_backend01 : (backend02 = backend01) = False := by
  simp [backend01, backend02]

theorem foldl_aggStep_responses (outs : List UnitOutcome) (st : AggState) :
    (outs.foldl aggStep st).responses = st.responses ++ outs.filterMap respOf := by
  induction outs generalizing st with
  | nil => simp
  | cons o rest ih =>
    cases o with
    | none => simpa [aggStep, respOf] using ih st
    | some u => simp [aggStep, respOf, ih]

theorem foldl_aggStep_b1 (outs : List UnitOutcome) (st : AggState) :
    (outs.foldl aggStep st).backend1Count = st.backend1Count + outs.countP isB1 := by
  induction outs generalizing st with
  | nil => simp
  | cons o rest ih =>
    cases o with
    | none => simpa [aggStep, isB1, List.countP_cons] using ih st
    | some u =>
      by_cases h : u.hostname = backend01 <;>
        simp [aggStep, isB1, List.countP_cons, h, ih] <;> omega

theorem foldl_aggStep_b2 (outs : List UnitOutcome) (st : AggState) :
    (outs.foldl aggStep st).backend2Count = st.backend2Count + outs.countP isB2 := by
  induction outs generalizing st with
  | nil => simp
  | cons o rest ih =>
    cases o with
    | none => simpa [aggStep, isB2, List.countP_cons] using ih st
    | some u =>
      by_cases h1 : u.hostname = backend01
      · simp [aggStep, isB2, List.countP_cons, h1, backend02_ne_backend01, ih]
      · by_cases h2 : u.hostname = backend02 <;>
          simp [aggStep, isB2, List.countP_cons, h1, h2, backend02_ne_backend01, ih] <;>
          omega

theorem aggregate_responses (outs : List UnitOutcome) :
    (aggregate outs).responses = outs.filterMap respOf := by
  simp [aggregate, foldl_aggStep_responses]

theorem aggregate_b1 (outs : List UnitOutcome) :
    (aggregate outs).backend1Count = outs.countP isB1 := by
  simp [aggregate, foldl_aggStep_b1]

theorem aggregate_b2 (outs : List UnitOutcome) :
    (aggregate outs).backend2Count = outs.countP isB2 := by
  simp [aggregate, foldl_aggStep_b2]

theorem length_filterMap_respOf (outs : List UnitOutcome) :
    (outs.filterMap respOf).length = outs.countP Option.isSome := by
  induction outs with
  | nil => rfl
  | cons o rest ih =>
    cases o <;> simp [respOf, List.countP_cons, ih]

theorem countP_isB1_add_isB2 (outs : List UnitOutcome) :
    outs.countP isB1 + outs.countP isB2 = outs.countP isCounted := by
  induction outs with
  | nil => rfl
  | cons o rest ih =>
    cases o with
    | none => simpa [isB1, isB2, isCounted, List.countP_cons] using ih
    | some u =>
      by_cases h1 : u.hostname = backend01 <;>
        by_cases h2 : u.hostname = backend02 <;>
          simp [isB1, isB2, isCounted, List.countP_cons, h1, h2,
            backend02_ne_backend01] <;>
          omega

theorem countP_isCounted_le (outs : List UnitOutcome) :
    outs.countP isCounted ≤ outs.countP Option.isSome := by
  induction outs with
  | nil => exact Nat.le_refl 0
  | cons o rest ih =>
    cases o with
    | none => simpa [isCounted, isB1, isB2, List.countP_cons] using ih
    | some u =>
      by_cases h1 : u.hostname = backend01 <;>
        by_cases h2 : u.hostname = backend02 <;>
          simp [isCounted, isB1, isB2, List.countP_cons, h1, h2,
            backend02_ne_backend01] <;>
          omega

theorem countP_isSome_add_isNone (outs : List UnitOutcome) :
    outs.countP Option.isSome + outs.countP Option.isNone = outs.length := by
  induction outs with
  | nil => rfl
  | cons o rest ih => cases o <;> simp [List.countP_cons] <;> omega

theorem isCounted_some_iff (u : UnitSuccess) :
    isCounted (some u) = true ↔
      (u.hostname = backend01 ∨ u.hostname = backend02) := by
  by_cases h1 : u.hostname = backend01 <;>
    by_cases h2 : u.hostname = backend02 <;>
      simp [isCounted, isB1, isB2, h1, h2, backend02_ne_backend01]

/-- Claim C1: for every aggregation request with a validated count n where
all n backend calls succeed, len(responses) = n and
backend1_count + backend2_count ≤ n, with equality exactly when every
decoded hostname equals one of the two hard-coded identity constants; a
result whose hostname matches neither constant is still appended to
responses but increments neither counter; and in general the number of
entries in responses equals n minus the calls that failed, with failures
dropped silently (contributing nothing). -/
theorem aggregate_success_counts (outs : List UnitOutcome) (n : Nat)
    (hlen : outs.length = n) (hsucc : ∀ o ∈ outs, o.isSome) :
    (aggregate outs).responses.length = n ∧
    (aggregate outs).backend1Count + (aggregate outs).backend2Count ≤ n ∧
    ((aggregate outs).backend1Count + (aggregate outs).backend2Count = n ↔
      ∀ u : UnitSuccess, some u ∈ outs →
        u.hostname = backend01 ∨ u.hostname = backend02) ∧
    (∀ st u, u.hostname ≠ backend01 → u.hostname ≠ backend02 →
      (aggStep st (some u)).responses =
        st.responses ++ [{ uuid := u.uuid, hostname := u.hostname,
                           execTime := formatMs u.elapsedMs }] ∧
      (aggStep st (some u)).backend1Count = st.backend1Count ∧
      (aggStep st (some u)).backend2Count = st.backend2Count) ∧
    (∀ outsAny : List UnitOutcome,
      (aggregate outsAny).responses.length =
        outsAny.length - outsAny.countP Option.isNone) := by
  have hall : outs.countP Option.isSome = outs.length :=
    List.countP_eq_length.mpr hsucc
  refine ⟨?_, ?_, ?_, ?_, ?_⟩
  · rw [aggregate_responses, length_filterMap_respOf, hall, hlen]
  · rw [aggregate_b1, aggregate_b2, countP_isB1_add_isB2]
    calc outs.countP isCounted ≤ outs.countP Option.isSome :=
          countP_isCounted_le outs
      _ = n := by rw [hall, hlen]
  · rw [aggregate_b1, aggregate_b2, countP_isB1_add_isB2, ← hlen, ← hall, hall]
    rw [List.countP_eq_length]
    constructor
    · intro h u hu
      exact (isCounted_some_iff u).mp (h (some u) hu)
    · intro h o ho
      match o, hsucc o ho with
      | some u, _ => exact (isCounted_some_iff u).mpr (h u ho)
  · intro st u h1 h2
    refine ⟨rfl, ?_, ?_⟩ <;> simp [aggStep, h1, h2]
  · intro outsAny
    rw [aggregate_responses, length_filterMap_respOf]
    have := countP_isSome_add_isNone outsAny
    omega

/-- Witness for aggregate_success_counts: three successful calls, one of
which reports a hostname matching neither identity constant. -/
theorem aggregate_success_counts_witness :
    (aggregate [some ⟨"u1", "GoBackend01", 3⟩, some ⟨"u2", "GoBackend02", 4⟩,
        some ⟨"u3", "SomeOtherHost", 5⟩]).responses.length = 3 ∧
    (aggregate [some ⟨"u1", "GoBackend01", 3⟩, some ⟨"u2", "GoBackend02", 4⟩,
        some ⟨"u3", "SomeOtherHost", 5⟩]).backend1Count +
      (aggregate [some ⟨"u1", "GoBackend01", 3⟩, some ⟨"u2", "GoBackend02", 4⟩,
        some ⟨"u3", "SomeOtherHost", 5⟩]).backend2Count ≤ 3 := by
  have h := aggregate_success_counts
    [some ⟨"u1", "GoBackend01", 3⟩, some ⟨"u2", "GoBackend02", 4⟩,
     some ⟨"u3", "SomeOtherHost", 5⟩] 3 (by decide) (by decide)
  exact ⟨h.1, h.2.1⟩

/-- Claim C5: for every aggregation request with a validated count, even
if every unit fails, the handler responds 200 with an empty responses
array and both counters zero; a failed unit contributes no result, no
counter increment and no error to the response. -/
theorem aggregate_all_failures_ok (countStr : String) (n : Int)
    (outs : List UnitOutcome) (tms : Nat)
    (hc : goAtoi countStr = some n) (hfail : ∀ o ∈ outs, o = none) :
    aggregateHandler countStr outs tms =
      .ok 200 { responses := [], backend1Count := 0, backend2Count := 0,
                totalTime := formatMs tms } := by
  have hne : countStr ≠ "" := by
    intro h
    rw [h] at hc
    exact Option.noConfusion hc
  have hresp : (aggregate outs).responses = [] := by
    rw [aggregate_responses]
    rw [List.filterMap_eq_nil_iff]
    intro o ho
    rw [hfail o ho]
    rfl
  have hb1 : (aggregate outs).backend1Count = 0 := by
    rw [aggregate_b1]
    rw [List.countP_eq_zero]
    intro o ho
    rw [hfail o ho]
    simp [isB1]
  have hb2 : (aggregate outs).backend2Count = 0 := by
    rw [aggregate_b2]
    rw [List.countP_eq_zero]
    intro o ho
    rw [hfail o ho]
    simp [isB2]
  simp [aggregateHandler, hne, hc, hresp, hb1, hb2]

/-- Witness for aggregate_all_failures_ok: count 2, both units fail. -/
theorem aggregate_all_failures_ok_witness :
    aggregateHandler "2" [none, none] 9 =
      .ok 200 { responses := [], backend1Count := 0, backend2Count := 0,
                totalTime := formatMs 9 } :=
  aggregate_all_failures_ok "2" 2 [none, none] 9 (by decide) (by decide)

/-- Claim C3: a missing count parameter yields 400 with body
"count parameter is required"; a present but non-integer count yields
400 with body "invalid count parameter"; a count of zero or a negative
integer is not rejected (any parse success reaches the 200 path, and
"0" and "-5" parse). -/
theorem aggregate_count_validation (countStr : String)
    (outs : List UnitOutcome) (tms : Nat) :
    (countStr = "" →
      aggregateHandler countStr outs tms =
        .httpError 400 "count parameter is required") ∧
    (countStr ≠ "" → goAtoi countStr = none →
      aggregateHandler countStr outs tms =
        .httpError 400 "invalid count parameter") ∧
    (∀ n : Int, goAtoi countStr = some n →
      handlerStatus (aggregateHandler countStr outs tms) = 200) ∧
    goAtoi "0" = some 0 ∧ goAtoi "-5" = some (-5) := by
  refine ⟨?_, ?_, ?_, by decide, by decide⟩
  · intro h
    simp [aggregateHandler, h]
  · intro hne hp
    simp [aggregateHandler, hne, hp]
  · intro n hn
    have hne : countStr ≠ "" := by
      intro h
      rw [h] at hn
      exact Option.noConfusion hn
    simp [aggregateHandler, hne, hn, handlerStatus]

/-- Witness for aggregate_count_validation: the missing-parameter branch
at countStr = "", the malformed branch at "abc", and the accepted
negative count at "-5". -/
theorem aggregate_count_validation_witness :
    aggregateHandler "" [] 0 = .httpError 400 "count parameter is required" ∧
    aggregateHandler "abc" [] 0 = .httpError 400 "invalid count parameter" ∧
    handlerStatus (aggregateHandler "-5" [] 0) = 200 := by
  refine ⟨(aggregate_count_validation "" [] 0).1 rfl,
    (aggregate_count_validation "abc" [] 0).2.1 (by decide) (by decide),
    (aggregate_count_validation "-5" [] 0).2.2.1 (-5) (by decide)⟩

/-- Claim C10: for every aggregation request whose count parses as an
integer at most zero, the loop launches zero units, the handler responds
200 with both counters zero and an empty results collection, which
(being a nil slice) marshals as JSON null rather than an empty array;
the request is not rejected. -/
theorem aggregate_nonpositive_count (countStr : String) (n : Int) (tms : Nat)
    (elemJson : BackendResponse → String)
    (hc : goAtoi countStr = some n) (hnp : n ≤ 0) :
    numUnits n = 0 ∧
    aggregateHandler countStr [] tms =
      .ok 200 { responses := [], backend1Count := 0, backend2Count := 0,
                totalTime := formatMs tms } ∧
    marshalResponsesField elemJson [] = "null" := by
  refine ⟨?_, ?_, rfl⟩
  · simp [numUnits]
    omega
  · have hne : countStr ≠ "" := by
      intro h
      rw [h] at hc
      exact Option.noConfusion hc
    simp [aggregateHandler, hne, hc, aggregate]

/-- Witness for aggregate_nonpositive_count at count "-3". -/
theorem aggregate_nonpositive_count_witness :
    numUnits (-3) = 0 ∧
    aggregateHandler "-3" [] 4 =
      .ok 200 { responses := [], backend1Count := 0, backend2Count := 0,
                totalTime := formatMs 4 } ∧
    marshalResponsesField (fun _ => "") [] = "null" :=
  aggregate_nonpositive_count "-3" (-3) 4 (fun _ => "")
    (by decide) (by decide)

/-! ### Timing of the fan-out -/

/-- One successful unit with the two time.Now readings it takes around
its call, and the backend fields it decodes. Program order and the
WaitGroup barrier put both readings inside the interval of the two
top-level readings: a goroutine reads startTime after the handler read
totalStartTime, and the handler reads totalEndTime after wg.Wait, hence
after every goroutine read its endTime. -/
structure UnitRun where
  callStartNs : Nat
  callEndNs : Nat
  uuid : String
  hostname : String
deriving DecidableEq

/-- The outcome a successful run contributes: its measured duration in
whole milliseconds together with the decoded fields. -/
def runOutcome (r : UnitRun) : UnitOutcome :=
  some { uuid := r.uuid, hostname := r.hostname,
         elapsedMs := durMs r.callStartNs r.callEndNs }

theorem responses_of_runs (runs : List UnitRun) :
    (aggregate (runs.map runOutcome)).responses.map (fun b => b.execTime) =
      runs.map (fun r => formatMs (durMs r.callStartNs r.callEndNs)) := by
  rw [aggregate_responses]
  induction runs with
  | nil => rfl
  | cons r rest ih => simp [runOutcome, respOf, List.filterMap_cons] at ih ⊢; exact ih

/-- Claim C9: total_time and every exec_time are whole-millisecond
strings of the form formatMs m; total_time is durMs of the two top-level
readings taken once around the whole fan-out (not the sum of per-unit
times); and the total is at least every individual exec_time value in
milliseconds, because each unit interval lies within the top-level
interval. -/
theorem aggregate_timing (runs : List UnitRun) (tS tE : Nat)
    (countStr : String) (n : Int) (hc : goAtoi countStr = some n)
    (hin : ∀ r ∈ runs, tS ≤ r.callStartNs ∧ r.callStartNs ≤ r.callEndNs ∧
      r.callEndNs ≤ tE) :
    ((aggregate (runs.map runOutcome)).responses.map (fun b => b.execTime) =
      runs.map (fun r => formatMs (durMs r.callStartNs r.callEndNs))) ∧
    (∀ r ∈ runs, durMs r.callStartNs r.callEndNs ≤ durMs tS tE) ∧
    reportedTotalTime
        (aggregateHandler countStr (runs.map runOutcome) (durMs tS tE)) =
      some (formatMs (durMs tS tE)) := by
  have hne : countStr ≠ "" := by
    intro h
    rw [h] at hc
    exact Option.noConfusion hc
  refine ⟨responses_of_runs runs, ?_, ?_⟩
  · intro r hr
    obtain ⟨h1, h2, h3⟩ := hin r hr
    exact Nat.div_le_div_right (by omega)
  · simp [aggregateHandler, hne, hc, reportedTotalTime]

/-- Witness for aggregate_timing: one call timed from 5 ns to 2000005 ns
inside a top-level interval from 0 ns to 3000000 ns, count "1". -/
theorem aggregate_timing_witness :
    durMs 5 2000005 ≤ durMs 0 3000000 ∧
    reportedTotalTime
        (aggregateHandler "1" ([⟨5, 2000005, "u", "h"⟩].map runOutcome)
          (durMs 0 3000000)) =
      some (formatMs (durMs 0 3000000)) := by
  have h := aggregate_timing [⟨5, 2000005, "u", "h"⟩] 0 3000000 "1" 1
    (by decide) (by decide)
  exact ⟨h.2.1 ⟨5, 2000005, "u", "h"⟩ (by decide), h.2.2⟩

/-! ### Reverse-proxy relay (frontend main.go) -/

/-- allowedMethod from main.go: the switch over the four verbs. -/
def allowedMethod (m : String) : Bool :=
  match m with
  | "GET" | "POST" | "PUT" | "DELETE" => true
  | _ => false

/-- The backend configuration of the frontend:
getEnv("BACKEND_URL", "http://localhost:8081"). -/
def backendConfig (envBackendURL : String) : String :=
  getEnvOr envBackendURL "http://localhost:8081"

/-- A header collection: (name, value) pairs in insertion order, one pair
per value; Header.Add appends a pair. http.Header canonicalizes names,
modelled here by comparing names case-insensitively on lookups. -/
abbrev Headers := List (String × String)

/-- The hop-by-hop names of the switch in copyHeaders, lower-cased as the
switch compares them. -/
def hopByHopHeaders : List String :=
  ["connection", "keep-alive", "proxy-authenticate", "proxy-authorization",
   "te", "trailers", "transfer-encoding", "upgrade"]

/-- A name the copyHeaders switch skips. -/
def isHopByHop (k : String) : Bool :=
  hopByHopHeaders.contains (goToLower k)

/-- copyHeaders from main.go, applied to the empty destination the relay
uses (the outbound request of http.NewRequestWithContext starts with no
headers): every source pair is added except those whose lower-cased name
is hop-by-hop. -/
def copyHeaders (src : Headers) : Headers :=
  src.filter (fun kv => !isHopByHop kv.1)

/-- http.Header.Set: delete every value stored under the name, then add
the new pair. -/
def setHeader (hs : Headers) (k v : String) : Headers :=
  hs.filter (fun kv => goToLower kv.1 != goToLower k) ++ [(k, v)]

/-- http.Header.Get: the first value stored under the name, or "" when
the name is absent. -/
def headerGet (hs : Headers) (k : String) : String :=
  match hs.find? (fun kv => goToLower kv.1 == goToLower k) with
  | some kv => kv.2
  | none => ""

/-- clientIP from main.go: the trimmed first comma-separated entry of a
non-empty X-Forwarded-For header, else the host part of
net.SplitHostPort of RemoteAddr, else RemoteAddr itself when the split
fails. -/
def clientIP (hs : Headers) (remoteAddr : String) : String :=
  let x := headerGet hs "X-Forwarded-For"
  if x ≠ "" then goTrimSpace (String.mk ((splitOnChar x.data ',').headD []))
  else
    match splitHostPort remoteAddr with
    | none => remoteAddr
    | some hp => hp.1

/-- The fields of net/url.URL the relay reads from the parsed backend
base and writes into the target. -/
structure URLParts where
  scheme : String
  host : String
  path : String
  rawQuery : String
deriving DecidableEq

/-- url.URL.String for the URLs the relay builds: faithful for URLs with
a scheme and host, no user info, opaque part or fragment, and a path
that needs no escaping. -/
def urlString (u : URLParts) : String :=
  u.scheme ++ "://" ++ u.host ++ u.path ++
    (if u.rawQuery = "" then "" else "?" ++ u.rawQuery)

/-- The target URL built at lines 102-110 of main.go: backend scheme and
host, path = filepath.ToSlash(filepath.Join(basePath, inbound path with
the "/api" prefix trimmed)) where ToSlash is the identity on a Unix
separator, and the inbound raw query carried over. -/
def relayTarget (base : URLParts) (inboundPath inboundRawQuery : String) : URLParts :=
  { scheme := base.scheme, host := base.host,
    path := goJoin2 base.path (trimPrefix inboundPath "/api"),
    rawQuery := inboundRawQuery }

/-- The outbound request the relay builds: inbound method, target URL,
sanitized headers with X-Forwarded-For set, and the inbound body stream
(carried here as an opaque string). -/
structure OutboundRequest where
  method : String
  url : URLParts
  headers : Headers
  body : String
deriving DecidableEq

/-- Headers of the outbound request: copyHeaders of the inbound headers
into the fresh request, then Set of X-Forwarded-For to the resolved
client IP. -/
def outboundHeaders (inHdrs : Headers) (remoteAddr : String) : Headers :=
  setHeader (copyHeaders inHdrs) "X-Forwarded-For" (clientIP inHdrs remoteAddr)

/-- What the /api/ handler decides before any outbound traffic: an error
response written with http.Error (no outbound call is made), or the
outbound request handed to client.Do. -/
inductive RelayOutcome where
  | reject (status : Nat) (message : String)
  | forward (req : OutboundRequest)
deriving DecidableEq

/-- True when the outcome performs the outbound call. -/
def madeOutboundCall : RelayOutcome → Bool
  | .reject _ _ => false
  | .forward _ => true

/-- The /api/ handler of main.go up to client.Do. parsedBackend is the
result of url.Parse on the backend URL (none models a parse error). The
http.NewRequestWithContext error branch (500 "failed create request")
only triggers for an invalid method or target and is unreachable for the
values built here, so it is not modelled. -/
def relayHandler (backendURL : String) (parsedBackend : Option URLParts)
    (method path rawQuery : String) (inHdrs : Headers)
    (remoteAddr body : String) : RelayOutcome :=
  if backendURL = "" then .reject 502 "backend not configured"
  else if !allowedMethod method then .reject 405 "method not allowed"
  else
    match parsedBackend with
    | none => .reject 500 "bad backend url"
    | some u =>
      .forward { method := method, url := relayTarget u path rawQuery,
                 headers := outboundHeaders inHdrs remoteAddr, body := body }

/-- The backend reply visible to the relay: status, headers, body. -/
structure BackendReply where
  status : Nat
  headers : Headers
  body : String
deriving DecidableEq

/-- What the relay writes back to its client. -/
inductive RelayResponse where
  | errorResp (status : Nat) (message : String)
  | proxied (status : Nat) (headers : Headers) (body : String)
deriving DecidableEq

/-- Lines 130-134 of main.go: every backend response header pair is added
to the response writer headers, with no filtering. -/
def propagateRespHeaders (dst src : Headers) : Headers := dst ++ src

/-- The relay after client.Do: a transport error (client.Do returning
err ≠ nil, modelled as none) yields http.Error with 502 and
"backend unavailable"; success propagates all backend headers, writes
the backend status and streams the backend body. -/
def relayFinish (w : Headers) : Option BackendReply → RelayResponse
  | none => .errorResp 502 "backend unavailable"
  | some rep => .proxied rep.status (propagateRespHeaders w rep.headers) rep.body

/-- The bytes a RelayResponse writes to the client: http.Error writes the
message followed by a newline; the proxied branch streams the backend
body. -/
def responseBody : RelayResponse → String
  | .errorResp _ m => m ++ "\n"
  | .proxied _ _ b => b

/-- The status code a RelayResponse writes. -/
def responseStatus : RelayResponse → Nat
  | .errorResp s _ => s
  | .proxied s _ _ => s

/-! ### Relay lemmas and claims -/

/-- The configured backend URL is never empty: getEnv falls back to the
non-empty default "http://localhost:8081". -/
theorem backendConfig_ne_empty (env : String) : backendConfig env ≠ "" := by
  unfold backendConfig getEnvOr
  by_cases h : env = "" <;> simp [h]

theorem find?_append_singleton (l : Headers) (k v : String)
    (h : ∀ kv ∈ l, (goToLower kv.1 == goToLower k) = false) :
    (l ++ [(k, v)]).find? (fun kv => goToLower kv.1 == goToLower k) =
      some (k, v) := by
  induction l with
  | nil => simp [List.find?]
  | cons a l ih =>
    rw [List.cons_append, List.find?_cons_of_neg]
    · exact ih (fun kv hkv => h kv (List.mem_cons_of_mem a hkv))
    · simp [h a (List.mem_cons_self a l)]

/-- Header.Set followed by Header.Get on the same name yields the set
value. -/
theorem headerGet_setHeader (hs : Headers) (k v : String) :
    headerGet (setHeader hs k v) k = v := by
  unfold headerGet setHeader
  rw [find?_append_singleton]
  intro kv hkv
  have h2 := (List.mem_filter.mp hkv).2
  simpa [bne] using h2

/-- Claim C2: for every relay request under the relay prefix, the backend
target URL is the backend base with the inbound path joined on after
removing the "/api" prefix, the inbound query string preserved
unchanged, and the inbound method and body preserved; in particular
/api/foo?x=1 against backend base http://h/base is forwarded to
http://h/base/foo?x=1. -/
theorem relay_target_construction (env : String) (u : URLParts)
    (method path rawQuery : String) (inHdrs : Headers)
    (remoteAddr body : String) (hm : allowedMethod method = true) :
    relayHandler (backendConfig env) (some u) method path rawQuery inHdrs
        remoteAddr body =
      .forward { method := method,
                 url := { scheme := u.scheme, host := u.host,
                          path := goJoin2 u.path (trimPrefix path "/api"),
                          rawQuery := rawQuery },
                 headers := outboundHeaders inHdrs remoteAddr, body := body } ∧
    urlString (relayTarget ⟨"http", "h", "/base", ""⟩ "/api/foo" "x=1") =
      "http://h/base/foo?x=1" := by
  constructor
  · simp [relayHandler, backendConfig_ne_empty env, hm, relayTarget]
  · decide

/-- Witness for relay_target_construction: a GET of /api/foo?x=1. -/
theorem relay_target_construction_witness :
    relayHandler (backendConfig "") (some ⟨"http", "h", "/base", ""⟩)
        "GET" "/api/foo" "x=1" [] "1.2.3.4:999" "" =
      .forward { method := "GET",
                 url := { scheme := "http", host := "h",
                          path := goJoin2 "/base" (trimPrefix "/api/foo" "/api"),
                          rawQuery := "x=1" },
                 headers := outboundHeaders [] "1.2.3.4:999", body := "" } ∧
    urlString (relayTarget ⟨"http", "h", "/base", ""⟩ "/api/foo" "x=1") =
      "http://h/base/foo?x=1" :=
  relay_target_construction "" ⟨"http", "h", "/base", ""⟩ "GET" "/api/foo"
    "x=1" [] "1.2.3.4:999" "" (by decide)

/-- Claim C4: copying inbound request headers to the outbound request
drops exactly the pairs whose name is hop-by-hop (Connection, Keep-Alive,
Proxy-Authenticate, Proxy-Authorization, TE, Trailers, Transfer-Encoding,
Upgrade), matched case-insensitively, so an inbound Connection pair never
reaches the backend; copying backend response headers to the client
filters nothing, so a backend Transfer-Encoding pair is forwarded
verbatim. -/
theorem header_sanitation (src : Headers) :
    (∀ kv ∈ copyHeaders src, isHopByHop kv.1 = false) ∧
    (∀ kv ∈ src, isHopByHop kv.1 = false → kv ∈ copyHeaders src) ∧
    (∀ k v, goToLower k = "connection" → (k, v) ∉ copyHeaders src) ∧
    (∀ dst kv, kv ∈ src → kv ∈ propagateRespHeaders dst src) ∧
    (∀ dst v, ("Transfer-Encoding", v) ∈ src →
      ("Transfer-Encoding", v) ∈ propagateRespHeaders dst src) := by
  refine ⟨?_, ?_, ?_, ?_, ?_⟩
  · intro kv hkv
    have h2 := (List.mem_filter.mp hkv).2
    simpa using h2
  · intro kv hkv hnot
    exact List.mem_filter.mpr ⟨hkv, by simp [hnot]⟩
  · intro k v hk hmem
    have h2 := (List.mem_filter.mp hmem).2
    rw [Bool.not_eq_true'] at h2
    rw [isHopByHop, hk] at h2
    exact absurd h2 (by decide)
  · intro dst kv hkv
    exact List.mem_append_right dst hkv
  · intro dst v hv
    exact List.mem_append_right dst hv

/-- Witness for header_sanitation: Connection: keep-alive is dropped on
the request path while Transfer-Encoding: chunked survives the response
path. -/
theorem header_sanitation_witness :
    ("Connection", "keep-alive") ∉
      copyHeaders [("Connection", "keep-alive"), ("Accept", "text/html")] ∧
    ("Transfer-Encoding", "chunked") ∈
      propagateRespHeaders [("X-Server", "s")] [("Transfer-Encoding", "chunked")] :=
  ⟨(header_sanitation [("Connection", "keep-alive"), ("Accept", "text/html")]).2.2.1
      "Connection" "keep-alive" (by decide),
   (header_sanitation [("Transfer-Encoding", "chunked")]).2.2.2.2
      [("X-Server", "s")] "chunked" (by decide)⟩

/-- Claim C6: for every inbound relay request whose method is not one of
GET, POST, PUT, DELETE, the handler responds 405 with message
"method not allowed" and makes no outbound call; PATCH is such a
method. -/
theorem relay_method_not_allowed (env : String) (pb : Option URLParts)
    (method path rawQuery : String) (inHdrs : Headers)
    (remoteAddr body : String) (hm : allowedMethod method = false) :
    relayHandler (backendConfig env) pb method path rawQuery inHdrs
        remoteAddr body = .reject 405 "method not allowed" ∧
    madeOutboundCall (relayHandler (backendConfig env) pb method path rawQuery
        inHdrs remoteAddr body) = false ∧
    allowedMethod "PATCH" = false := by
  have hb := backendConfig_ne_empty env
  have h : relayHandler (backendConfig env) pb method path rawQuery inHdrs
      remoteAddr body = .reject 405 "method not allowed" := by
    simp [relayHandler, hb, hm]
  exact ⟨h, by rw [h]; rfl, rfl⟩

/-- Witness for relay_method_not_allowed: a PATCH request. -/
theorem relay_method_not_allowed_witness :
    relayHandler (backendConfig "") (some ⟨"http", "h", "", ""⟩) "PATCH"
        "/api/x" "" [] "1.2.3.4:5" "" = .reject 405 "method not allowed" ∧
    madeOutboundCall (relayHandler (backendConfig "")
        (some ⟨"http", "h", "", ""⟩) "PATCH" "/api/x" "" [] "1.2.3.4:5" "") =
      false :=
  ⟨(relay_method_not_allowed "" (some ⟨"http", "h", "", ""⟩) "PATCH" "/api/x"
      "" [] "1.2.3.4:5" "" (by decide)).1,
   (relay_method_not_allowed "" (some ⟨"http", "h", "", ""⟩) "PATCH" "/api/x"
      "" [] "1.2.3.4:5" "" (by decide)).2.1⟩

/-- Counterexample to claim C7 as stated: on a transport failure the
relay does write 502, but the body http.Error writes is the message
"backend unavailable" plus a newline, not the empty string. -/
theorem relay_transport_error_body_not_empty :
    responseStatus (relayFinish [] none) = 502 ∧
    responseBody (relayFinish [] none) ≠ "" := by
  constructor
  · rfl
  · decide

/-- Claim C7 amended: for every relay request whose outbound call fails
with a transport error, the relay responds 502, and the body written to
the client is the plain-text http.Error message "backend unavailable"
followed by a newline rather than the empty string. -/
theorem relay_transport_error (w : Headers) :
    relayFinish w none = .errorResp 502 "backend unavailable" ∧
    responseStatus (relayFinish w none) = 502 ∧
    responseBody (relayFinish w none) = "backend unavailable\n" :=
  ⟨rfl, rfl, rfl⟩

/-- Claim C8: the outbound X-Forwarded-For header is set to the resolved
client IP: the whitespace-trimmed first comma-separated entry of a
present and non-empty inbound X-Forwarded-For header, otherwise the host
part of the socket remote address. -/
theorem relay_x_forwarded_for (inHdrs : Headers) (remoteAddr : String) :
    headerGet (outboundHeaders inHdrs remoteAddr) "X-Forwarded-For" =
      clientIP inHdrs remoteAddr ∧
    (headerGet inHdrs "X-Forwarded-For" ≠ "" →
      clientIP inHdrs remoteAddr =
        goTrimSpace (String.mk
          ((splitOnChar (headerGet inHdrs "X-Forwarded-For").data ',').headD []))) ∧
    (headerGet inHdrs "X-Forwarded-For" = "" →
      ∀ h p, splitHostPort remoteAddr = some (h, p) →
        clientIP inHdrs remoteAddr = h) := by
  refine ⟨headerGet_setHeader _ _ _, ?_, ?_⟩
  · intro hx
    simp [clientIP, hx]
  · intro hx h p hsp
    simp [clientIP, hx, hsp]

/-- Witness for relay_x_forwarded_for: a request with an inbound
X-Forwarded-For list resolves to its trimmed first entry, and a request
without one resolves to the host part of RemoteAddr. -/
theorem relay_x_forwarded_for_witness :
    headerGet (outboundHeaders [("X-Forwarded-For", " 10.1.2.3, 4.4.4.4")]
        "7.7.7.7:42") "X-Forwarded-For" =
      clientIP [("X-Forwarded-For", " 10.1.2.3, 4.4.4.4")] "7.7.7.7:42" ∧
    clientIP [("X-Forwarded-For", " 10.1.2.3, 4.4.4.4")] "7.7.7.7:42" =
      goTrimSpace (String.mk ((splitOnChar
        (headerGet [("X-Forwarded-For", " 10.1.2.3, 4.4.4.4")]
          "X-Forwarded-For").data ',').headD [])) ∧
    clientIP [] "9.9.9.9:1234" = "9.9.9.9" :=
  ⟨(relay_x_forwarded_for [("X-Forwarded-For", " 10.1.2.3, 4.4.4.4")]
      "7.7.7.7:42").1,
   (relay_x_forwarded_for [("X-Forwarded-For", " 10.1.2.3, 4.4.4.4")]
      "7.7.7.7:42").2.1 (by decide),
   (relay_x_forwarded_for [] "9.9.9.9:1234").2.2 (by decide) "9.9.9.9" "1234"
      (by decide)⟩

end SimpleGolangFE
